import Mathlib

/-!
Verification of the PTP archiver client utility (`archiver.py`).

The script manipulates a JSON configuration (a Python dict), performs
remote fetch/download requests and runs optional post-fetch commands.
We embed the relevant parts shallowly:

* JSON values are modelled by `JVal`; Python dicts by insertion-ordered
  association lists `List (String × JVal)` (first match wins on lookup,
  insertion appends, update rewrites in place — exactly Python-dict
  observable behaviour for the operations the script uses).
* `str.replace`, `str.split(sep)`, `str.split()`, `os.path.basename`
  and `os.path.join` are given executable models over `List Char`.
* The network is an oracle: request functions take the reply the server
  would produce and additionally return the list of observable events
  (HTTP calls, downloads, sleeps, command executions, advisory prints)
  so that ordering/pacing properties can be stated.
-/

set_option autoImplicit false

namespace Archiver

/-- A JSON value as produced by `json.load`: null, booleans, numbers
(modelled over `ℚ`), strings (as `List Char`) and objects
(insertion-ordered association lists). Arrays never occur in the
configuration values the script touches and are omitted. -/

inductive JVal where
  | null : JVal
  | bool : Bool → JVal
  | num : ℚ → JVal
  | str : List Char → JVal
  | obj : List (String × JVal) → JVal

/-- Shorthand for building a `JVal` string from a string literal. -/
def jstr (s : String) : JVal := .str s.data

/-- Python dict lookup `m[k]` / `k in m`: first matching key wins. -/
def alookup {α : Type} : List (String × α) → String → Option α
  | [], _ => none
  | (k, v) :: t, k' => if k' = k then some v else alookup t k'

/-- Python `k in m`. -/
def containsKey {α : Type} (m : List (String × α)) (k : String) : Bool :=
  (alookup m k).isSome

/-- The body of `if key not in m: m[key] = v` — inserts at the end
(Python dicts preserve insertion order). -/
def insertIfAbsent {α : Type} (m : List (String × α)) (k : String) (v : α) : List (String × α) :=
  if containsKey m k then m else m ++ [(k, v)]

/-- The merge loop `for key in defaults: if key not in m: m[key] = defaults[key]`,
iterating over the entries of `ds` in order. -/
def mergeDefaults {α : Type} (ds : List (String × α)) (m : List (String × α)) : List (String × α) :=
  ds.foldl (fun acc kv => insertIfAbsent acc kv.1 kv.2) m

/-- Python dict assignment `m[k] = v`: overwrite the existing entry in
place, or append a new one. -/
def aset {α : Type} : List (String × α) → String → α → List (String × α)
  | [], k, v => [(k, v)]
  | (k0, v0) :: t, k, v => if k0 = k then (k0, v) :: t else (k0, v0) :: aset t k v

/-- `mapM` specialised to `Except`, written by structural recursion so
that everything reduces in the kernel. -/
def mapME {α β ε : Type} (f : α → Except ε β) : List α → Except ε (List β)
  | [] => .ok []
  | a :: l =>
    match f a with
    | .error e => .error e
    | .ok b =>
      match mapME f l with
      | .error e => .error e
      | .ok l' => .ok (b :: l')

/-- `pat` is a leading segment of `s` (used to find substring matches). -/
def startsSub : List Char → List Char → Bool
  | [], _ => true
  | _ :: _, [] => false
  | p :: ps, c :: cs => p == c && startsSub ps cs

/-- Python `pat in s` (substring containment) for non-empty `pat`. -/
def containsSub (pat : List Char) : List Char → Bool
  | [] => startsSub pat []
  | s@(_ :: t) => startsSub pat s || containsSub pat t

/-- Worker for `pyReplace`; the fuel is an upper bound on the length of
the remaining input, so with fuel `s.length` the fallback case is never
reached. -/
def replaceAllAux (pat rep : List Char) : Nat → List Char → List Char
  | _, [] => []
  | 0, s => s
  | fuel + 1, s@(c :: t) =>
    if !pat.isEmpty && startsSub pat s then
      rep ++ replaceAllAux pat rep fuel (s.drop pat.length)
    else
      c :: replaceAllAux pat rep fuel t

/-- Python `s.replace(pat, rep)` for a non-empty pattern: replace every
occurrence, scanning left to right without overlap. -/
def pyReplace (pat rep s : List Char) : List Char :=
  replaceAllAux pat rep s.length s

/-- Worker for `splitOnSub`; fuel as in `replaceAllAux`. -/
def splitOnSubAux (sep : List Char) : Nat → List Char → List Char → List (List Char)
  | 0, acc, s => [acc.reverse ++ s]
  | fuel + 1, acc, s =>
    if !sep.isEmpty && startsSub sep s then
      acc.reverse :: splitOnSubAux sep fuel [] (s.drop sep.length)
    else
      match s with
      | [] => [acc.reverse]
      | c :: t => splitOnSubAux sep fuel (c :: acc) t

/-- Python `s.split(sep)` for a non-empty separator: split at every
non-overlapping occurrence, keeping empty segments. -/
def splitOnSub (sep s : List Char) : List (List Char) :=
  splitOnSubAux sep (s.length + 1) [] s

/-- Python whitespace for `str.split()` with no argument. -/
def isPySpace (c : Char) : Bool :=
  c == ' ' || c == '\t' || c == '\n' || c == '\x0b' || c == '\x0c' || c == '\r'

/-- Worker for `splitWs`; fuel as in `replaceAllAux`. -/
def splitWsAux : Nat → List Char → List (List Char)
  | 0, s => if s.isEmpty then [] else [s]
  | _, [] => []
  | fuel + 1, c :: t =>
    if isPySpace c then splitWsAux fuel t
    else (c :: t.takeWhile (fun d => !isPySpace d)) :: splitWsAux fuel (t.dropWhile (fun d => !isPySpace d))

/-- Python `s.split()`: split on runs of whitespace, discarding empty
tokens. -/
def splitWs (s : List Char) : List (List Char) :=
  splitWsAux s.length s

/-- `os.path.basename` on POSIX: everything after the last `'/'`. -/
def pyBasename (s : List Char) : List Char :=
  (s.reverse.takeWhile (fun c => c != '/')).reverse

/-- `os.path.join(a, b)` on POSIX for two components. -/
def pyJoin (a b : List Char) : List Char :=
  if b.head? = some '/' then b
  else if a = [] || a.getLast? = some '/' then a ++ b
  else a ++ '/' :: b

/-- The `Default` sub-template of `default_config` (`archiver.py`,
lines 132-142). -/
def default_container : List (String × JVal) :=
  [("Size", jstr "500G"),
   ("MaxStalled", .num 0),
   ("AfterFetchExec", .null),
   ("WatchDirectory", jstr "/tmp/$name")]

/-- The compiled-in default configuration template (`archiver.py`,
lines 119-143), in source order (Python dicts iterate in insertion
order). -/
def default_config : List (String × JVal) :=
  [("ApiKey", .null),
   ("ApiUser", .null),
   ("Containers", .obj []),
   ("BaseURL", jstr "https://passthepopcorn.me"),
   ("FetchURL", jstr "archive.php?action=fetch"),
   ("UpdateURL", jstr "archive.php?action=script"),
   ("VersionURL", jstr "archive.php?action=scriptver"),
   ("DownloadURL", jstr "torrents.php?action=download"),
   ("FetchSleep", .num 5),
   ("Default", .obj default_container)]

/-- The literal substitution variable `"$name"`. -/
def dollarName : List Char := "$name".data

/-- The literal substitution variable `"$path"`. -/
def dollarPath : List Char := "$path".data

/-- Errors the script can raise in the modelled code paths.  Python
raises `ValueError`/`RuntimeError`/`TypeError`/`AttributeError`; we
keep them apart by site. -/
inductive Err where
  | unknownContainer
  | protocolError
  | duplicateName
  | missingDefault
  | badContainers
  | badContainer
  | badWatchDir
  | keyMissing
  | valueErrorInt
  | valueErrorFloat
  | execTypeError
  deriving DecidableEq

/-- The per-container body of the `load_config` loop (`archiver.py`
lines 163-167): merge the missing `Default` fields into the container
record, then substitute the container's key name for `$name` in
`WatchDirectory`.  A non-object container record or a non-string
watch-directory value makes the Python loop raise (`TypeError` /
`AttributeError`). -/
def loadContainer (name : String) : JVal → Except Err JVal
  | .obj cm =>
    let cm1 := mergeDefaults default_container cm
    match alookup cm1 "WatchDirectory" with
    | some (.str w) =>
      .ok (.obj (aset cm1 "WatchDirectory" (.str (pyReplace dollarName name.data w))))
    | _ => .error .badWatchDir
  | _ => .error .badContainer

/-- `load_config` (`archiver.py` lines 151-169) applied to an already
parsed top-level JSON object (file existence and JSON parsing are the
collaborator's concern): backfill missing top-level fields from
`default_config`, then merge and substitute each container. -/
def load_config (m : List (String × JVal)) : Except Err (List (String × JVal)) :=
  let m1 := mergeDefaults default_config m
  match alookup m1 "Containers" with
  | some (.obj cs) =>
    match mapME (fun e => (loadContainer e.1 e.2).map (fun c' => (e.1, c'))) cs with
    | .error e => .error e
    | .ok cs' => .ok (aset m1 "Containers" (.obj cs'))
  | _ => .error .badContainers

/-- The `create` action (`archiver.py` lines 327-332): reject a
duplicate name, otherwise insert a deep copy of the configuration's
`Default` template under the new name (deep copy is value semantics
here).  On the duplicate path Python prints and exits without touching
the map, so no configuration is returned. -/
def create_container (m : List (String × JVal)) (name : String) :
    Except Err (List (String × JVal)) :=
  match alookup m "Containers" with
  | some (.obj cs) =>
    if containsKey cs name then .error .duplicateName
    else
      match alookup m "Default" with
      | some dflt => .ok (aset m "Containers" (.obj (cs ++ [(name, dflt)])))
      | none => .error .missingDefault
  | _ => .error .badContainers

/-- Numeric value of a decimal digit string (total; callers check that
the characters are digits and the list is non-empty). -/
def natOfDigits (l : List Char) : Nat :=
  l.foldl (fun acc c => acc * 10 + (c.toNat - 48)) 0

/-- Python `int(s)` on a string: optional sign followed by at least one
decimal digit (Python also strips whitespace and allows underscores;
those inputs do not occur here and are treated as unparseable). -/
def pyIntStr : List Char → Option Int
  | '-' :: r => if r ≠ [] && r.all Char.isDigit then some (-(natOfDigits r : Int)) else none
  | '+' :: r => if r ≠ [] && r.all Char.isDigit then some (natOfDigits r : Int) else none
  | r => if r ≠ [] && r.all Char.isDigit then some (natOfDigits r : Int) else none

/-- Python `int(x)` on a JSON value: numbers truncate toward zero,
booleans count as 0/1, integer strings parse, everything else raises
`ValueError`/`TypeError`. -/
def pyInt : JVal → Option Int
  | .num q => some (Int.tdiv q.num (q.den : Int))
  | .bool b => some (if b then 1 else 0)
  | .str s => pyIntStr s
  | _ => none

/-- An unsigned decimal literal with optional fractional part, as a
rational: `digits`, `digits.`, `digits.digits` or `.digits`. -/
def parseDecUnsigned (s : List Char) : Option ℚ :=
  let intPart := s.takeWhile Char.isDigit
  let rest := s.dropWhile Char.isDigit
  match rest with
  | [] => if intPart.isEmpty then none else some (mkRat (natOfDigits intPart) 1)
  | '.' :: frac =>
    if frac.all Char.isDigit && !(intPart.isEmpty && frac.isEmpty) then
      some (mkRat (natOfDigits intPart * 10 ^ frac.length + natOfDigits frac) (10 ^ frac.length))
    else none
  | _ => none

/-- Python `float(s)` on a string, modelled for plain optional-sign
decimal literals over the rationals (Python additionally accepts
exponents, `inf`/`nan`, underscores and surrounding whitespace; such
inputs are treated as unparseable, and binary floating-point rounding
is immaterial to the order comparisons made here). -/
def pyFloatStr : List Char → Option ℚ
  | '-' :: r => (parseDecUnsigned r).map (fun q => -q)
  | '+' :: r => parseDecUnsigned r
  | r => parseDecUnsigned r

/-- Python `float(x)` on a JSON value: numbers pass through, booleans
count as 0/1, decimal strings parse, everything else (in particular
`None`) raises `ValueError`/`TypeError`. -/
def pyFloat : JVal → Option ℚ
  | .num q => some q
  | .bool b => some (if b then 1 else 0)
  | .str s => pyFloatStr s
  | _ => none

/-- `__version__ = '0.10'` (`archiver.py` line 58) as the rational
value of `float('0.10')`. -/
def versionQ : ℚ := mkRat 1 10

/-- Python truthiness for the JSON values the script tests with
`if after:`. -/
def truthy : JVal → Bool
  | .null => false
  | .bool b => b
  | .num q => !(q == 0)
  | .str s => !s.isEmpty
  | .obj m => !m.isEmpty

/-- `reply['Status'] in ('Ok', 'Error')` for a JSON value (non-string
values compare unequal to both literals). -/
def statusOkay : JVal → Bool
  | .str s => s == "Ok".data || s == "Error".data
  | _ => false

/-- The error condition of `api_request` (`archiver.py` line 189):
the body must have a `Status` field whose value is `"Ok"` or
`"Error"`, and every caller-specified required key must be present. -/
def api_request_check (reply : List (String × JVal)) (keys : List String) : Bool :=
  match alookup reply "Status" with
  | none => false
  | some v => statusOkay v && keys.all (fun k => containsKey reply k)

/-- `api_request` (`archiver.py` lines 185-191) applied to the parsed
JSON object of the HTTP reply: raise `RuntimeError` when the check
fails, otherwise return the reply unchanged (a `Status` of `"Error"`
is returned, not rejected). -/
def api_request (reply : List (String × JVal)) (keys : List String) :
    Except Err (List (String × JVal)) :=
  if api_request_check reply keys then .ok reply else .error .protocolError

/-- A container record as it stands after `load_config`: every
`Default`-template field is present and the watch directory is a
resolved string.  `ContainerID` is the lazily assigned remote
identifier. -/
structure Container where
  Size : JVal
  MaxStalled : JVal
  AfterFetchExec : JVal
  WatchDirectory : List Char
  ContainerID : Option Int

/-- The slice of the loaded configuration the fetch orchestrator
reads: the container mapping and the `FetchSleep` delay (the URL and
credential fields only feed the HTTP layer, which is the oracle
here). -/
structure Config where
  Containers : List (String × Container)
  FetchSleep : JVal

/-- Observable events of a fetch invocation, in order: the fetch HTTP
request for a container, the download HTTP request, the advisory
out-of-date notice, one executed post-fetch command (its argv), and
the inter-container sleep with the configured delay. -/
inductive Ev where
  | fetch : String → Ev
  | download : String → Ev
  | advisory : Ev
  | exec : List (List Char) → Ev
  | sleep : JVal → Ev

/-- Store a freshly assigned container id into the in-memory
configuration (`container['ContainerID'] = int(...)`,
`archiver.py` line 203). -/
def setContainerID (cfg : Config) (name : String) (i : Int) : Config :=
  match alookup cfg.Containers name with
  | some c => { cfg with Containers := aset cfg.Containers name { c with ContainerID := some i } }
  | none => cfg

/-- The required keys of the fetch endpoint reply. -/
def fetchKeys : List String := ["ContainerID", "ScriptVersion"]

/-- `fetch_request` (`archiver.py` lines 193-208), with the server's
JSON reply supplied as an oracle.  Returns the events that happened
(the HTTP request fires before any reply validation), the in-memory
configuration as it stands when the function returns or raises, and
the result.  The `ContainerID` assignment happens before the version
comparison, so a version that fails `float()` still leaves the id
stored. -/
def fetch_request (cfg : Config) (name : String) (reply : List (String × JVal)) :
    List Ev × Config × Except Err (List (String × JVal)) :=
  match alookup cfg.Containers name with
  | none => ([], cfg, .error .unknownContainer)
  | some _ =>
    if api_request_check reply fetchKeys then
      match alookup reply "ContainerID" with
      | none => ([.fetch name], cfg, .error .keyMissing)
      | some v =>
        match pyInt v with
        | none => ([.fetch name], cfg, .error .valueErrorInt)
        | some i =>
          let cfg' := setContainerID cfg name i
          match alookup reply "ScriptVersion" with
          | none => ([.fetch name], cfg', .error .keyMissing)
          | some sv =>
            match pyFloat sv with
            | none => ([.fetch name], cfg', .error .valueErrorFloat)
            | some q =>
              if versionQ < q then ([.fetch name, .advisory], cfg', .ok reply)
              else ([.fetch name], cfg', .ok reply)
    else ([.fetch name], cfg, .error .protocolError)

/-- The after-fetch command pipeline (`archiver.py` lines 347-354):
substitute `$path` with the downloaded file's path and `$name` with
its base name (in that order), split on the literal `'&&'`, and split
each segment on whitespace into the argv handed to `subprocess.Popen`
(no shell interpretation). -/
def afterFetchCmds (after filepath : List Char) : List (List (List Char)) :=
  let a1 := pyReplace dollarPath filepath after
  let a2 := pyReplace dollarName (pyBasename filepath) a1
  (splitOnSub "&&".data a2).map splitWs

/-- The after-fetch tail of one `fetch` loop iteration (`archiver.py`
lines 345-354): re-read the container's `AfterFetchExec`; if it is
truthy it must be a string (otherwise `.replace` raises
`AttributeError`), and its resolved command segments are executed in
order. -/
def afterStep (cfg' : Config) (name : String) (filepath : List Char) :
    List Ev × Except Err Unit :=
  match alookup cfg'.Containers name with
  | none => ([], .error .unknownContainer)
  | some c =>
    if truthy c.AfterFetchExec then
      match c.AfterFetchExec with
      | .str s => ((afterFetchCmds s filepath).map Ev.exec, .ok ())
      | _ => ([], .error .execTypeError)
    else ([], .ok ())

/-- One iteration of the `fetch` action loop without the pacing sleep
(`archiver.py` lines 340-354): fetch, then download (outcome supplied
as an oracle), then optionally run the after-fetch commands.  The
returned configuration is the in-memory state even when a step
raises. -/
def process_container (cfg : Config) (name : String)
    (reply : List (String × JVal)) (dl : Except Err (List Char)) :
    List Ev × Config × Except Err Unit :=
  match fetch_request cfg name reply with
  | (evs, cfg', .error e) => (evs, cfg', .error e)
  | (evs, cfg', .ok _) =>
    match dl with
    | .error e => (evs ++ [.download name], cfg', .error e)
    | .ok filepath =>
      (evs ++ [.download name] ++ (afterStep cfg' name filepath).1, cfg',
        (afterStep cfg' name filepath).2)

/-- Python string `<=`: lexicographic comparison by code points. -/
def lexLe : List Char → List Char → Bool
  | [], _ => true
  | _ :: _, [] => false
  | a :: as, b :: bs =>
    if a.toNat < b.toNat then true
    else if a.toNat = b.toNat then lexLe as bs
    else false

/-- The sort order used by `sorted` on container names. -/
def strLe (a b : String) : Prop := lexLe a.data b.data = true

instance : DecidableRel strLe := fun a b => instDecidableEqBool (lexLe a.data b.data) true

/-- Python `sorted` on strings: a stable sort, lexicographic by code
points (modelled by insertion sort, which is stable). -/
def sortStrings (l : List String) : List String :=
  List.insertionSort strLe l

/-- Python `str.lower()` restricted to ASCII letters (the only
characters that matter for the comparison against `'all'`). -/
def pyLower (s : List Char) : List Char :=
  s.map (fun c => if 65 ≤ c.toNat ∧ c.toNat ≤ 90 then Char.ofNat (c.toNat + 32) else c)

/-- The loop of the `fetch` action (`archiver.py` lines 340-357):
process each requested container in order; after each container whose
name differs from the last entry of the list, sleep the configured
delay.  `fo` and `dl` are the per-container server oracles. -/
def fetchLoop (cfg : Config) (ns : List String) (lastName : Option String)
    (fo : String → List (String × JVal)) (dl : String → Except Err (List Char)) :
    List Ev × Config × Except Err Unit :=
  match ns with
  | [] => ([], cfg, .ok ())
  | n :: rest =>
    match process_container cfg n (fo n) (dl n) with
    | (evs, cfg', .error e) => (evs, cfg', .error e)
    | (evs, cfg', .ok _) =>
      let evs1 := if some n ≠ lastName then evs ++ [.sleep cfg'.FetchSleep] else evs
      match fetchLoop cfg' rest lastName fo dl with
      | (evs2, cfg'', r) => (evs1 ++ evs2, cfg'', r)

/-- The container names the `fetch` action will process
(`archiver.py` lines 336-339): the name `all` (case-insensitively)
selects every configured container name, sorted; otherwise just the
given name. -/
def fetchTargets (cfg : Config) (nameArg : String) : List String :=
  if pyLower nameArg.data = "all".data then sortStrings (cfg.Containers.map Prod.fst)
  else [nameArg]

/-- The `fetch` action (`archiver.py` lines 335-357). -/
def fetch_action (cfg : Config) (nameArg : String)
    (fo : String → List (String × JVal)) (dl : String → Except Err (List Char)) :
    List Ev × Config × Except Err Unit :=
  fetchLoop cfg (fetchTargets cfg nameArg) (fetchTargets cfg nameArg).getLast? fo dl

/-- The target path computed by `download_request` (`archiver.py`
lines 219-228) from the resolved absolute watch directory and the
filename carried by the server's `Content-Disposition` header: the
server filename is reduced to its base name and joined onto the watch
directory. -/
def downloadPath (watchAbs serverFilename : List Char) : List Char :=
  pyJoin watchAbs (pyBasename serverFilename)

/-- A sample container record (all `Default` fields resolved). -/
def sampleContainer : Container :=
  ⟨jstr "500G", .num 0, .null, "/tmp/A".data, none⟩

/-- A sample configuration with one container `A`. -/
def sampleConfig : Config := ⟨[("A", sampleContainer)], .num 5⟩

/-- A sample configuration with containers `B`, `C`, `A` (in that
insertion order, so sorting matters). -/
def sampleConfig3 : Config :=
  ⟨[("B", sampleContainer), ("C", sampleContainer), ("A", sampleContainer)], .num 5⟩

/-- A well-formed fetch-endpoint reply. -/
def sampleReply : List (String × JVal) :=
  [("Status", jstr "Ok"), ("ContainerID", jstr "7"), ("ScriptVersion", jstr "0.10"),
   ("TorrentID", .num 1), ("ArchiveID", .num 2)]

/-- The spec's enumeration of the conditions under which `ApiRequest`
fails with a protocol error (stated from the spec's words, to be
compared with the implementation's check). -/
def protocolFailure (reply : List (String × JVal)) (keys : List String) : Prop :=
  alookup reply "Status" = none ∨
  (∃ v, alookup reply "Status" = some v ∧ v ≠ jstr "Ok" ∧ v ≠ jstr "Error") ∨
  (∃ k ∈ keys, alookup reply k = none)

/-- A fetch reply that passes every protocol check but whose
`ScriptVersion` is JSON `null`, on which Python's `float()` raises. -/
def nullVersionReply : List (String × JVal) :=
  [("Status", jstr "Ok"), ("ContainerID", .num 5), ("ScriptVersion", .null),
   ("TorrentID", .num 1), ("ArchiveID", .num 2)]

/-- The preconditions under which one loop iteration of the `fetch`
action completes without raising and without an advisory or exec
event: the container exists with a null after-fetch template, the
server reply passes the protocol check with convertible id and
version, the remote version is not newer, and the download
succeeds. -/
def FetchSucceeds (cfg : Config) (fo : String → List (String × JVal))
    (dl : String → Except Err (List Char)) (n : String) : Prop :=
  ∃ c, alookup cfg.Containers n = some c ∧ c.AfterFetchExec = .null ∧
    api_request_check (fo n) fetchKeys = true ∧
    (∃ v i, alookup (fo n) "ContainerID" = some v ∧ pyInt v = some i) ∧
    (∃ sv q, alookup (fo n) "ScriptVersion" = some sv ∧ pyFloat sv = some q ∧
      ¬ versionQ < q) ∧
    (∃ p, dl n = .ok p)

/-- The event trace the claim describes (stated from the spec's
words, to be compared with the trace the loop produces): for each
container a fetch followed by a download, with a sleep of the
configured delay after every container except the one named last. -/
def expectedEvents (sleepV : JVal) (last : Option String) : List String → List Ev
  | [] => []
  | n :: rest =>
    [Ev.fetch n, Ev.download n] ++ (if some n ≠ last then [Ev.sleep sleepV] else [])
      ++ expectedEvents sleepV last rest

/-- The constant benign oracles used by the C4 witness. -/
def sampleFo : String → List (String × JVal) := fun _ =>
  [("Status", jstr "Ok"), ("ContainerID", .num 1), ("ScriptVersion", jstr "0.10"),
   ("TorrentID", .num 1), ("ArchiveID", .num 2)]

/-- The constant download oracle used by the C4 witness. -/
def sampleDl : String → Except Err (List Char) := fun _ => .ok "/tmp/x.torrent".data

/-- A small configuration document as it would be parsed from disk:
credentials partly set, one container with only a size. -/
def sampleDoc : List (String × JVal) :=
  [("ApiUser", jstr "u"), ("Containers", .obj [("Foo", .obj [("Size", jstr "1T")])])]

/-- The container record of `sampleDoc` after loading. -/
def fooLoaded : List (String × JVal) :=
  [("Size", jstr "1T"), ("MaxStalled", .num 0), ("AfterFetchExec", .null),
   ("WatchDirectory", jstr "/tmp/Foo")]

/-- `sampleDoc` after loading. -/
def loadedSample : List (String × JVal) :=
  [("ApiUser", jstr "u"), ("Containers", .obj [("Foo", .obj fooLoaded)]),
   ("ApiKey", .null),
   ("BaseURL", jstr "https://passthepopcorn.me"),
   ("FetchURL", jstr "archive.php?action=fetch"),
   ("UpdateURL", jstr "archive.php?action=script"),
   ("VersionURL", jstr "archive.php?action=scriptver"),
   ("DownloadURL", jstr "torrents.php?action=download"),
   ("FetchSleep", .num 5),
   ("Default", .obj default_container)]

/-- Serialization is content-preserving (`save_config` dumps the JSON
document and a reload parses it back; only key order, which the claim
sets aside, can differ), so a load-save-load cycle is `load_config`
applied to its own output.  `containerClean` checks that one loaded
container's resolved watch directory no longer contains the literal
`$name` — the condition under which re-substitution changes nothing. -/
def containerClean (e : String × JVal) : Bool :=
  match e.2 with
  | .obj cm =>
    match alookup cm "WatchDirectory" with
    | some (.str w) => !containsSub dollarName w
    | _ => true
  | _ => true

/-- Every container of the loaded document is `containerClean`. -/
def watchClean (d : List (String × JVal)) : Bool :=
  match alookup d "Containers" with
  | some (.obj cs) => cs.all containerClean
  | _ => true

/-- A parsed configuration whose single container is named `n` and
whose stored watch directory is the literal `$$nameame`: substitution
turns it into exactly `$name`, which a second load substitutes
again. -/
def trickyDoc : List (String × JVal) :=
  [("Containers", .obj [("n", .obj [("WatchDirectory", jstr "$$nameame")])])]

/-- `trickyDoc` after one load: the watch directory became `$name`. -/
def trickyLoaded : List (String × JVal) :=
  [("Containers", .obj [("n", .obj
      [("WatchDirectory", jstr "$name"), ("Size", jstr "500G"),
       ("MaxStalled", .num 0), ("AfterFetchExec", .null)])]),
   ("ApiKey", .null), ("ApiUser", .null),
   ("BaseURL", jstr "https://passthepopcorn.me"),
   ("FetchURL", jstr "archive.php?action=fetch"),
   ("UpdateURL", jstr "archive.php?action=script"),
   ("VersionURL", jstr "archive.php?action=scriptver"),
   ("DownloadURL", jstr "torrents.php?action=download"),
   ("FetchSleep", .num 5),
   ("Default", .obj default_container)]

/-- `trickyLoaded` after a second load: the watch directory is `n`. -/
def trickyLoaded2 : List (String × JVal) :=
  [("Containers", .obj [("n", .obj
      [("WatchDirectory", jstr "n"), ("Size", jstr "500G"),
       ("MaxStalled", .num 0), ("AfterFetchExec", .null)])]),
   ("ApiKey", .null), ("ApiUser", .null),
   ("BaseURL", jstr "https://passthepopcorn.me"),
   ("FetchURL", jstr "archive.php?action=fetch"),
   ("UpdateURL", jstr "archive.php?action=script"),
   ("VersionURL", jstr "archive.php?action=scriptver"),
   ("DownloadURL", jstr "torrents.php?action=download"),
   ("FetchSleep", .num 5),
   ("Default", .obj default_container)]

/-- Reads the watch directory of container `n` out of a document. -/
def watchOfDoc (d : List (String × JVal)) : Option JVal :=
  match alookup d "Containers" with
  | some (.obj cs) =>
    match alookup cs "n" with
    | some (.obj cm) => alookup cm "WatchDirectory"
    | _ => none
  | _ => none

/-! ### Theorems -/

@[simp] theorem alookup_nil {α : Type} (k : String) : alookup ([] : List (String × α)) k = none := rfl

@[simp] theorem alookup_cons {α : Type} (k0 : String) (v0 : α) (t : List (String × α)) (k : String) :
    alookup ((k0, v0) :: t) k = if k = k0 then some v0 else alookup t k := rfl

theorem alookup_append {α : Type} (m₁ m₂ : List (String × α)) (k : String) :
    alookup (m₁ ++ m₂) k = (alookup m₁ k).or (alookup m₂ k) := by
  induction m₁ with
  | nil => simp
  | cons hd tl ih =>
    obtain ⟨k0, v0⟩ := hd
    by_cases h : k = k0 <;> simp [h, ih]

theorem alookup_insertIfAbsent {α : Type} (m : List (String × α)) (k : String) (v : α) (k' : String) :
    alookup (insertIfAbsent m k v) k'
      = (alookup m k').or (if k' = k then some v else none) := by
  unfold insertIfAbsent containsKey
  cases halt : alookup m k with
  | some w =>
    simp only [halt, Option.isSome_some, if_true]
    by_cases hk : k' = k
    · subst hk
      simp [halt]
    · simp [hk]
  | none =>
    simp [halt, alookup_append]

theorem alookup_mergeDefaults {α : Type} (ds : List (String × α)) (m : List (String × α)) (k : String) :
    alookup (mergeDefaults ds m) k = (alookup m k).or (alookup ds k) := by
  induction ds generalizing m with
  | nil => simp [mergeDefaults]
  | cons hd tl ih =>
    obtain ⟨k0, v0⟩ := hd
    show alookup (mergeDefaults tl (insertIfAbsent m k0 v0)) k = _
    rw [ih, alookup_insertIfAbsent]
    by_cases h : k = k0
    · subst h
      cases halt : alookup m k <;> simp [Option.or_assoc]
    · simp only [alookup_cons, if_neg h]
      cases halt : alookup m k <;> simp [h]

theorem alookup_aset {α : Type} (m : List (String × α)) (k : String) (v : α) (k' : String) :
    alookup (aset m k v) k' = if k' = k then some v else alookup m k' := by
  induction m with
  | nil => simp [aset]
  | cons hd tl ih =>
    obtain ⟨k0, v0⟩ := hd
    by_cases h0 : k0 = k
    · subst h0
      by_cases h : k' = k0 <;> simp [aset, h]
    · by_cases h : k' = k0
      · subst h
        simp [aset, h0, Ne.symm h0]
      · simp [aset, h0, h, ih]

theorem aset_self {α : Type} (m : List (String × α)) (k : String) (v : α)
    (h : alookup m k = some v) : aset m k v = m := by
  induction m with
  | nil => simp [alookup] at h
  | cons hd tl ih =>
    obtain ⟨k0, v0⟩ := hd
    by_cases hk : k = k0
    · subst hk
      have hv : v0 = v := by simpa using h
      subst hv
      simp [aset]
    · simp only [alookup_cons, if_neg hk] at h
      have hne : ¬k0 = k := fun hh => hk hh.symm
      simp [aset, hne, ih h]

theorem mergeDefaults_noop {α : Type} (ds m : List (String × α))
    (h : ∀ kv ∈ ds, containsKey m kv.1 = true) : mergeDefaults ds m = m := by
  induction ds with
  | nil => rfl
  | cons hd tl ih =>
    show mergeDefaults tl (insertIfAbsent m hd.1 hd.2) = m
    have hm : insertIfAbsent m hd.1 hd.2 = m := by
      unfold insertIfAbsent
      simp [h hd (by simp)]
    rw [hm]
    exact ih (fun kv hkv => h kv (by simp [hkv]))

theorem alookup_isSome_of_mem {α : Type} (ds : List (String × α)) (k : String) (v : α)
    (h : (k, v) ∈ ds) : (alookup ds k).isSome = true := by
  induction ds with
  | nil => simp at h
  | cons hd tl ih =>
    obtain ⟨k0, v0⟩ := hd
    rcases List.mem_cons.mp h with h1 | h2
    · cases h1
      simp
    · by_cases hk : k = k0 <;> simp [hk, ih h2]

theorem mapME_forall₂ {α β ε : Type} (f : α → Except ε β) :
    ∀ (l : List α) (l' : List β), mapME f l = .ok l' →
      List.Forall₂ (fun a b => f a = .ok b) l l' := by
  intro l
  induction l with
  | nil =>
    intro l' h
    simp only [mapME] at h
    cases h
    exact List.Forall₂.nil
  | cons a t ih =>
    intro l' h
    simp only [mapME] at h
    cases hfa : f a with
    | error e => rw [hfa] at h; cases h
    | ok b =>
      rw [hfa] at h
      cases ht : mapME f t with
      | error e => rw [ht] at h; cases h
      | ok t' =>
        rw [ht] at h
        cases h
        exact List.Forall₂.cons hfa (ih t' ht)

theorem mapME_id {α ε : Type} (f : α → Except ε α) (l : List α)
    (h : ∀ a ∈ l, f a = .ok a) : mapME f l = .ok l := by
  induction l with
  | nil => rfl
  | cons a t ih =>
    simp only [mapME, h a (by simp), ih (fun x hx => h x (by simp [hx]))]

theorem replaceAllAux_of_not_contains (pat rep : List Char) :
    ∀ (fuel : Nat) (s : List Char), containsSub pat s = false →
      replaceAllAux pat rep fuel s = s := by
  intro fuel
  induction fuel with
  | zero => intro s _; cases s <;> rfl
  | succ n ih =>
    intro s hs
    cases s with
    | nil => rfl
    | cons c t =>
      simp only [containsSub, Bool.or_eq_false_iff] at hs
      simp only [replaceAllAux, hs.1, Bool.and_false]
      rw [if_neg (by simp), ih t hs.2]

/-- If the pattern does not occur in `s`, `s.replace(pat, rep)` is `s`. -/
theorem pyReplace_of_not_contains (pat rep s : List Char)
    (h : containsSub pat s = false) : pyReplace pat rep s = s :=
  replaceAllAux_of_not_contains pat rep s.length s h

/-- The base name never contains a path separator. -/
theorem pyBasename_no_sep (s : List Char) : '/' ∉ pyBasename s := by
  intro hmem
  unfold pyBasename at hmem
  rw [List.mem_reverse] at hmem
  have := List.mem_takeWhile_imp hmem
  simp at this

/-- Sanity link: the modelled `float` applied to the source's literal
version string yields `versionQ`. -/
theorem pyFloatStr_version : pyFloatStr "0.10".data = some versionQ := by decide

theorem statusOkay_iff (v : JVal) :
    statusOkay v = true ↔ v = jstr "Ok" ∨ v = jstr "Error" := by
  cases v <;> simp [statusOkay, jstr]

theorem alookup_isSome_iff {α : Type} (m : List (String × α)) (k : String) :
    (alookup m k).isSome = true ↔ ∃ v, alookup m k = some v :=
  Option.isSome_iff_exists

/-- C5: the after-fetch step substitutes `$path` with the absolute
file path and `$name` with the file's base name, splits on the literal
`&&` and runs each segment without a shell; the template
`"echo $name && echo $path"` with path `/tmp/Foo/abc.torrent` yields
exactly the commands `echo abc.torrent` and
`echo /tmp/Foo/abc.torrent`. -/
theorem after_fetch_substitution :
    (∀ after path, afterFetchCmds after path
        = (splitOnSub "&&".data
            (pyReplace dollarName (pyBasename path)
              (pyReplace dollarPath path after))).map splitWs) ∧
    afterFetchCmds "echo $name && echo $path".data "/tmp/Foo/abc.torrent".data
      = [["echo".data, "abc.torrent".data],
         ["echo".data, "/tmp/Foo/abc.torrent".data]] :=
  ⟨fun _ _ => rfl, by rfl⟩

/-- C10: whatever filename the server supplies, the write target is
the resolved watch directory joined with the separator-free base name
of that filename, so directory components in the server-chosen name
(`../x`, `a/b.torrent`) cannot direct the write outside the watch
directory. -/
theorem download_path_confined (watchAbs serverFilename : List Char)
    (h1 : watchAbs ≠ []) (h2 : watchAbs.getLast? ≠ some '/') :
    '/' ∉ pyBasename serverFilename ∧
    downloadPath watchAbs serverFilename = watchAbs ++ '/' :: pyBasename serverFilename := by
  refine ⟨pyBasename_no_sep serverFilename, ?_⟩
  unfold downloadPath pyJoin
  have hb : (pyBasename serverFilename).head? ≠ some '/' := by
    intro hh
    cases hcase : pyBasename serverFilename with
    | nil => rw [hcase] at hh; cases hh
    | cons x t =>
      rw [hcase] at hh
      simp only [List.head?_cons, Option.some.injEq] at hh
      exact pyBasename_no_sep serverFilename (by rw [hcase, hh]; simp)
  rw [if_neg hb, if_neg (by simp [h1, h2])]

/-- Witness for C10 at `watchAbs = "/tmp/Foo"`,
`serverFilename = "../x"`. -/
theorem download_path_confined_witness :
    '/' ∉ pyBasename "../x".data ∧
    downloadPath "/tmp/Foo".data "../x".data = "/tmp/Foo/x".data := by
  have h := download_path_confined "/tmp/Foo".data "../x".data (by decide) (by decide)
  exact ⟨h.1, h.2.trans (by rfl)⟩

/-- C3: fetching for a name absent from the container mapping fails
with the unknown-container error before any HTTP request happens: the
event trace is empty, the configuration untouched, and the result is
independent of whatever the server would have replied. -/
theorem fetch_request_unknown_no_http (cfg : Config) (name : String)
    (reply : List (String × JVal)) (h : alookup cfg.Containers name = none) :
    fetch_request cfg name reply = ([], cfg, .error .unknownContainer) := by
  unfold fetch_request
  rw [h]

/-- Witness for C3: `sampleConfig` knows no container `B`. -/
theorem fetch_request_unknown_no_http_witness :
    fetch_request sampleConfig "B" sampleReply
      = ([], sampleConfig, .error .unknownContainer) :=
  fetch_request_unknown_no_http sampleConfig "B" sampleReply (by rfl)

/-- C2: creating a container whose name is already present fails with
the duplicate-name error (the failing call returns no modified
configuration, so the container map is unchanged); creating a fresh
name appends a copy of the configuration's `Default` template under
that name, after which creating the same name again fails. -/
theorem create_container_duplicate (m cs : List (String × JVal)) (name : String)
    (hcs : alookup m "Containers" = some (.obj cs)) :
    (containsKey cs name = true → create_container m name = .error .duplicateName) ∧
    (containsKey cs name = false → ∀ dflt, alookup m "Default" = some dflt →
      create_container m name = .ok (aset m "Containers" (.obj (cs ++ [(name, dflt)]))) ∧
      alookup (cs ++ [(name, dflt)]) name = some dflt ∧
      create_container (aset m "Containers" (.obj (cs ++ [(name, dflt)]))) name
        = .error .duplicateName) := by
  constructor
  · intro hdup
    unfold create_container
    rw [hcs]
    simp [hdup]
  · intro hfresh dflt hdflt
    have hlook : alookup (cs ++ [(name, dflt)]) name = some dflt := by
      unfold containsKey at hfresh
      cases halt : alookup cs name with
      | some w => simp [halt] at hfresh
      | none => rw [alookup_append]; simp [halt]
    refine ⟨?_, hlook, ?_⟩
    · unfold create_container
      rw [hcs]
      simp [hfresh, hdflt]
    · unfold create_container
      rw [alookup_aset]
      simp only [if_pos rfl]
      have : containsKey (cs ++ [(name, dflt)]) name = true := by
        unfold containsKey
        rw [hlook]
        rfl
      simp [this]

/-- Witness for C2: create `"Foo"` twice in a configuration whose
container map is empty. -/
theorem create_container_duplicate_witness :
    create_container [("Containers", JVal.obj []), ("Default", .obj default_container)] "Foo"
      = .ok [("Containers", JVal.obj [("Foo", .obj default_container)]),
             ("Default", .obj default_container)] ∧
    create_container [("Containers", JVal.obj [("Foo", .obj default_container)]),
                      ("Default", .obj default_container)] "Foo"
      = .error .duplicateName := by
  have h := (create_container_duplicate
      [("Containers", JVal.obj []), ("Default", .obj default_container)] [] "Foo"
      (by rfl)).2 (by rfl) (.obj default_container) (by rfl)
  exact ⟨h.1, h.2.2⟩

theorem containsKey_eq_false {α : Type} (m : List (String × α)) (k : String) :
    containsKey m k = false ↔ alookup m k = none := by
  unfold containsKey
  cases alookup m k <;> simp

theorem api_request_check_false_iff (reply : List (String × JVal)) (keys : List String) :
    api_request_check reply keys = false ↔ protocolFailure reply keys := by
  unfold api_request_check protocolFailure
  cases halt : alookup reply "Status" with
  | none => simp
  | some v =>
    simp only [halt, Bool.and_eq_false_iff, Option.some.injEq]
    constructor
    · rintro (hs | ha)
      · refine Or.inr (Or.inl ⟨v, rfl, ?_⟩)
        have := (statusOkay_iff v).not
        simp only [hs] at this
        simpa [not_or] using this.mp (by simp)
      · refine Or.inr (Or.inr ?_)
        obtain ⟨k, hk, hck⟩ := by simpa using List.all_eq_false.mp ha
        exact ⟨k, hk, (containsKey_eq_false reply k).mp (by simpa using hck)⟩
    · rintro (h | ⟨v', hv', h1, h2⟩ | ⟨k, hk, hkn⟩)
      · cases h
      · cases hv'
        left
        rcases hso : statusOkay v with _ | _
        · rfl
        · rcases (statusOkay_iff v).mp hso with h | h
          · exact absurd h h1
          · exact absurd h h2
      · right
        exact List.all_eq_false.mpr ⟨k, hk, by simp [(containsKey_eq_false reply k).mpr hkn]⟩

/-- C6: `api_request` fails with the protocol error exactly when the
reply lacks a `Status` field, its `Status` value is neither `"Ok"` nor
`"Error"`, or a required key is missing; otherwise it returns the
parsed reply — in particular a reply whose `Status` is `"Error"` but
that carries all required keys is returned, not rejected. -/
theorem api_request_protocol (reply : List (String × JVal)) (keys : List String) :
    (api_request reply keys = .error .protocolError ↔ protocolFailure reply keys) ∧
    (api_request reply keys = .ok reply ↔ ¬ protocolFailure reply keys) ∧
    (alookup reply "Status" = some (jstr "Error") →
      (∀ k ∈ keys, (alookup reply k).isSome = true) →
      api_request reply keys = .ok reply) := by
  have hiff := api_request_check_false_iff reply keys
  refine ⟨?_, ?_, ?_⟩
  · cases hchk : api_request_check reply keys with
    | false => simp [api_request, hchk, hiff.mp hchk]
    | true =>
      simp only [api_request, hchk, if_true]
      constructor
      · intro h; cases h
      · intro h
        rw [← hiff] at h
        rw [hchk] at h
        cases h
  · cases hchk : api_request_check reply keys with
    | false => simp [api_request, hchk, hiff.mp hchk]
    | true =>
      simp only [api_request, hchk, if_true, true_iff]
      rw [← hiff, hchk]
      simp
  · intro hst hkeys
    have hchk : api_request_check reply keys = true := by
      unfold api_request_check
      rw [hst]
      simp only [Bool.and_eq_true]
      refine ⟨by simp [statusOkay, jstr], List.all_eq_true.mpr ?_⟩
      intro k hk
      exact hkeys k hk
    simp [api_request, hchk]

/-- Witness for C6: a reply whose `Status` is `"Error"` with the
required key present is returned unchanged. -/
theorem api_request_protocol_witness :
    api_request [("Status", jstr "Error"), ("ContainerID", .num 3)] ["ContainerID"]
      = .ok [("Status", jstr "Error"), ("ContainerID", .num 3)] :=
  (api_request_protocol [("Status", jstr "Error"), ("ContainerID", .num 3)]
      ["ContainerID"]).2.2 (by rfl) (by decide)

theorem api_request_check_key (reply : List (String × JVal)) (keys : List String)
    (k : String) (hchk : api_request_check reply keys = true) (hk : k ∈ keys) :
    ∃ u, alookup reply k = some u := by
  unfold api_request_check at hchk
  cases halt : alookup reply "Status" with
  | none => rw [halt] at hchk; cases hchk
  | some v =>
    rw [halt] at hchk
    have hall := (Bool.and_eq_true _ _).mp hchk |>.2
    have := List.all_eq_true.mp hall k hk
    unfold containsKey at this
    exact Option.isSome_iff_exists.mp this

theorem setContainerID_lookup_self (cfg : Config) (name : String) (c : Container) (i : Int)
    (hc : alookup cfg.Containers name = some c) :
    alookup (setContainerID cfg name i).Containers name
      = some { c with ContainerID := some i } := by
  unfold setContainerID
  rw [hc]
  simp [alookup_aset]

theorem fetch_request_config (cfg : Config) (name : String) (c : Container)
    (reply : List (String × JVal)) (v : JVal) (i : Int)
    (hc : alookup cfg.Containers name = some c)
    (hchk : api_request_check reply fetchKeys = true)
    (hv : alookup reply "ContainerID" = some v) (hi : pyInt v = some i) :
    (fetch_request cfg name reply).2.1 = setContainerID cfg name i := by
  obtain ⟨sv, hsv⟩ := api_request_check_key reply fetchKeys "ScriptVersion" hchk (by simp [fetchKeys])
  unfold fetch_request
  simp only [hc, hchk, if_true, hv, hi, hsv]
  cases pyFloat sv with
  | none => rfl
  | some q =>
    by_cases hlt : versionQ < q <;> simp [hlt]

theorem process_container_config (cfg : Config) (name : String)
    (reply : List (String × JVal)) (dl : Except Err (List Char)) :
    (process_container cfg name reply dl).2.1 = (fetch_request cfg name reply).2.1 := by
  unfold process_container
  rcases hfr : fetch_request cfg name reply with ⟨evs, cfg', r⟩
  cases r with
  | error e => rfl
  | ok x => cases dl <;> rfl

/-- C7: on a fetch whose reply passes the protocol check and whose
`ContainerID` converts to an integer, that integer is stored into the
container's record in the in-memory configuration before the download
step, so whatever the download's outcome the id is present in the
configuration that reaches the final save. -/
theorem fetch_stores_container_id (cfg : Config) (name : String) (c : Container)
    (reply : List (String × JVal)) (v : JVal) (i : Int) (dl : Except Err (List Char))
    (hc : alookup cfg.Containers name = some c)
    (hchk : api_request_check reply fetchKeys = true)
    (hv : alookup reply "ContainerID" = some v) (hi : pyInt v = some i) :
    ∃ c', alookup (process_container cfg name reply dl).2.1.Containers name = some c' ∧
      c'.ContainerID = some i := by
  rw [process_container_config, fetch_request_config cfg name c reply v i hc hchk hv hi]
  exact ⟨_, setContainerID_lookup_self cfg name c i hc, rfl⟩

/-- Witness for C7: the id `7` from `sampleReply` is in the
configuration although the download fails. -/
theorem fetch_stores_container_id_witness :
    ∃ c', alookup (process_container sampleConfig "A" sampleReply
        (.error .protocolError)).2.1.Containers "A" = some c' ∧
      c'.ContainerID = some 7 :=
  fetch_stores_container_id sampleConfig "A" sampleContainer sampleReply
    (jstr "7") 7 (.error .protocolError) (by rfl) (by rfl) (by rfl) (by rfl)

/-- Counterexample to C9 as stated: this reply passes the
`api_request` check (so the fetch succeeds up to the version step),
yet `fetch_request` does not return the reply — the `float()`
conversion inside the version comparison raises and the fetch fails. -/
theorem fetch_version_comparison_cex :
    api_request_check nullVersionReply fetchKeys = true ∧
    pyFloat (.null) = none ∧
    (fetch_request sampleConfig "A" nullVersionReply).2.2 ≠ .ok nullVersionReply := by
  refine ⟨by rfl, by rfl, ?_⟩
  intro h
  have h2 : (fetch_request sampleConfig "A" nullVersionReply).2.2
      = .error .valueErrorFloat := by rfl
  rw [h2] at h
  cases h

/-- C9 (amended): provided the reply's `ScriptVersion` value converts
to a number, the version comparison never affects the result — the
reply is returned whether or not the remote version is newer — and
the advisory notice is emitted exactly when the remote version
exceeds the local `0.10`. -/
theorem fetch_version_advisory (cfg : Config) (name : String) (c : Container)
    (reply : List (String × JVal)) (v : JVal) (i : Int) (sv : JVal) (q : ℚ)
    (hc : alookup cfg.Containers name = some c)
    (hchk : api_request_check reply fetchKeys = true)
    (hv : alookup reply "ContainerID" = some v) (hi : pyInt v = some i)
    (hsv : alookup reply "ScriptVersion" = some sv) (hq : pyFloat sv = some q) :
    (fetch_request cfg name reply).2.2 = .ok reply ∧
    (fetch_request cfg name reply).1
      = (if versionQ < q then [Ev.fetch name, Ev.advisory] else [Ev.fetch name]) := by
  unfold fetch_request
  simp only [hc, hchk, if_true, hv, hi, hsv, hq]
  by_cases hlt : versionQ < q <;> simp [hlt]

/-- Witness for C9 (amended) at a remote version `0.20`, newer than
the local one: the reply is returned and the advisory emitted. -/
theorem fetch_version_advisory_witness :
    (fetch_request sampleConfig "A"
        [("Status", jstr "Ok"), ("ContainerID", .num 5), ("ScriptVersion", jstr "0.20")]).2.2
      = .ok [("Status", jstr "Ok"), ("ContainerID", .num 5), ("ScriptVersion", jstr "0.20")] ∧
    (fetch_request sampleConfig "A"
        [("Status", jstr "Ok"), ("ContainerID", .num 5), ("ScriptVersion", jstr "0.20")]).1
      = [Ev.fetch "A", Ev.advisory] := by
  have h := fetch_version_advisory sampleConfig "A" sampleContainer
    [("Status", jstr "Ok"), ("ContainerID", .num 5), ("ScriptVersion", jstr "0.20")]
    (.num 5) 5 (jstr "0.20") (mkRat 20 100)
    (by rfl) (by rfl) (by rfl) (by rfl) (by rfl) (by rfl)
  exact ⟨h.1, h.2.trans (by rfl)⟩

theorem lexLe_cons_iff (x y : Char) (xs ys : List Char) :
    lexLe (x :: xs) (y :: ys) = true ↔
      x.toNat < y.toNat ∨ (x.toNat = y.toNat ∧ lexLe xs ys = true) := by
  show (if x.toNat < y.toNat then true
    else if x.toNat = y.toNat then lexLe xs ys else false) = true ↔ _
  by_cases h1 : x.toNat < y.toNat
  · simp [h1]
  · by_cases h2 : x.toNat = y.toNat <;> simp [h1, h2]

theorem lexLe_total : ∀ a b : List Char, lexLe a b = true ∨ lexLe b a = true := by
  intro a
  induction a with
  | nil => intro b; left; rfl
  | cons x xs ih =>
    intro b
    cases b with
    | nil => right; rfl
    | cons y ys =>
      rcases Nat.lt_trichotomy x.toNat y.toNat with h | h | h
      · exact Or.inl ((lexLe_cons_iff x y xs ys).mpr (Or.inl h))
      · rcases ih ys with h2 | h2
        · exact Or.inl ((lexLe_cons_iff x y xs ys).mpr (Or.inr ⟨h, h2⟩))
        · exact Or.inr ((lexLe_cons_iff y x ys xs).mpr (Or.inr ⟨h.symm, h2⟩))
      · exact Or.inr ((lexLe_cons_iff y x ys xs).mpr (Or.inl h))

theorem lexLe_trans : ∀ a b c : List Char,
    lexLe a b = true → lexLe b c = true → lexLe a c = true := by
  intro a
  induction a with
  | nil => intro b c _ _; rfl
  | cons x xs ih =>
    intro b c hab hbc
    cases b with
    | nil => cases hab
    | cons y ys =>
      cases c with
      | nil => cases hbc
      | cons z zs =>
        rcases (lexLe_cons_iff x y xs ys).mp hab with h1 | ⟨h1, h1r⟩ <;>
          rcases (lexLe_cons_iff y z ys zs).mp hbc with h2 | ⟨h2, h2r⟩
        · exact (lexLe_cons_iff x z xs zs).mpr (Or.inl (by omega))
        · exact (lexLe_cons_iff x z xs zs).mpr (Or.inl (by omega))
        · exact (lexLe_cons_iff x z xs zs).mpr (Or.inl (by omega))
        · exact (lexLe_cons_iff x z xs zs).mpr (Or.inr ⟨by omega, ih ys zs h1r h2r⟩)

theorem process_container_success (cfg : Config) (fo : String → List (String × JVal))
    (dl : String → Except Err (List Char)) (n : String)
    (h : FetchSucceeds cfg fo dl n) :
    ∃ i, process_container cfg n (fo n) (dl n)
      = ([Ev.fetch n, Ev.download n], setContainerID cfg n i, .ok ()) := by
  obtain ⟨c, hc, hafe, hchk, ⟨v, i, hv, hi⟩, ⟨sv, q, hsv, hq, hnlt⟩, ⟨p, hp⟩⟩ := h
  refine ⟨i, ?_⟩
  have hfr : fetch_request cfg n (fo n)
      = ([Ev.fetch n], setContainerID cfg n i, .ok (fo n)) := by
    unfold fetch_request
    simp only [hc, hchk, if_true, hv, hi, hsv, hq]
    rw [if_neg hnlt]
  have haft : afterStep (setContainerID cfg n i) n p = ([], .ok ()) := by
    unfold afterStep
    rw [setContainerID_lookup_self cfg n c i hc]
    show (if truthy c.AfterFetchExec then _ else _) = _
    rw [hafe]
    rfl
  unfold process_container
  rw [hfr, hp]
  simp [haft]

theorem setContainerID_FetchSleep (cfg : Config) (n : String) (i : Int) :
    (setContainerID cfg n i).FetchSleep = cfg.FetchSleep := by
  unfold setContainerID
  cases alookup cfg.Containers n <;> rfl

theorem FetchSucceeds_setCID (cfg : Config) (fo : String → List (String × JVal))
    (dl : String → Except Err (List Char)) (m : String) (i : Int) (n : String)
    (h : FetchSucceeds cfg fo dl n) : FetchSucceeds (setContainerID cfg m i) fo dl n := by
  obtain ⟨c, hc, hafe, h3, h4, h5, h6⟩ := h
  unfold setContainerID
  cases hm : alookup cfg.Containers m with
  | none => exact ⟨c, hc, hafe, h3, h4, h5, h6⟩
  | some cm =>
    by_cases hnm : n = m
    · subst hnm
      rw [hc] at hm
      cases hm
      refine ⟨{ c with ContainerID := some i }, ?_, hafe, h3, h4, h5, h6⟩
      show alookup (aset cfg.Containers n _) n = _
      rw [alookup_aset]
      simp
    · refine ⟨c, ?_, hafe, h3, h4, h5, h6⟩
      show alookup (aset cfg.Containers m _) n = _
      rw [alookup_aset, if_neg hnm, hc]

theorem fetchLoop_trace (fo : String → List (String × JVal))
    (dl : String → Except Err (List Char)) :
    ∀ (ns : List String) (cfg : Config) (last : Option String),
      (∀ n ∈ ns, FetchSucceeds cfg fo dl n) →
      (fetchLoop cfg ns last fo dl).1 = expectedEvents cfg.FetchSleep last ns ∧
      (fetchLoop cfg ns last fo dl).2.2 = .ok () := by
  intro ns
  induction ns with
  | nil => exact fun cfg last _ => ⟨rfl, rfl⟩
  | cons n rest ih =>
    intro cfg last h
    obtain ⟨i, hpc⟩ := process_container_success cfg fo dl n (h n (by simp))
    have hrest := ih (setContainerID cfg n i) last
      (fun n' hn' => FetchSucceeds_setCID cfg fo dl n i n' (h n' (by simp [hn'])))
    rcases hloop : fetchLoop (setContainerID cfg n i) rest last fo dl with ⟨evs2, cfg'', r⟩
    rw [hloop] at hrest
    simp only at hrest
    obtain ⟨he, hr⟩ := hrest
    subst he
    subst hr
    unfold fetchLoop
    rw [hpc]
    dsimp only
    rw [hloop, setContainerID_FetchSleep]
    refine ⟨?_, rfl⟩
    by_cases hlast : some n ≠ last
    · simp [expectedEvents, hlast]
    · simp [expectedEvents, hlast]

/-- C4: when the fetch action is invoked with the name `all`
(case-insensitively) and every container's fetch, download and
after-fetch step succeeds quietly, the full container-name set is
sorted lexicographically and processed strictly sequentially in that
order — a fetch then a download per container — with a sleep of the
configured delay after every container except the last; the sorted
list is a lexicographically sorted permutation of the configured
names. -/
theorem fetch_all_sorted_paced (cfg : Config) (nameArg : String)
    (fo : String → List (String × JVal)) (dl : String → Except Err (List Char))
    (hall : pyLower nameArg.data = "all".data)
    (h : ∀ n ∈ sortStrings (cfg.Containers.map Prod.fst), FetchSucceeds cfg fo dl n) :
    (fetch_action cfg nameArg fo dl).1
        = expectedEvents cfg.FetchSleep (sortStrings (cfg.Containers.map Prod.fst)).getLast?
            (sortStrings (cfg.Containers.map Prod.fst)) ∧
    (fetch_action cfg nameArg fo dl).2.2 = .ok () ∧
    (sortStrings (cfg.Containers.map Prod.fst)).Sorted strLe ∧
    List.Perm (sortStrings (cfg.Containers.map Prod.fst)) (cfg.Containers.map Prod.fst) := by
  have htgt : fetchTargets cfg nameArg = sortStrings (cfg.Containers.map Prod.fst) := by
    unfold fetchTargets
    rw [if_pos hall]
  haveI : IsTotal String strLe := ⟨fun a b => lexLe_total a.data b.data⟩
  haveI : IsTrans String strLe := ⟨fun a b c => lexLe_trans a.data b.data c.data⟩
  unfold fetch_action
  rw [htgt]
  obtain ⟨h1, h2⟩ := fetchLoop_trace fo dl (sortStrings (cfg.Containers.map Prod.fst)) cfg
    (sortStrings (cfg.Containers.map Prod.fst)).getLast? h
  exact ⟨h1, h2, List.sorted_insertionSort strLe _, List.perm_insertionSort strLe _⟩

/-- Witness for C4: containers inserted as `B`, `C`, `A` are fetched
as `A`, `B`, `C`, with a sleep after `A` and after `B` but not after
`C`. -/
theorem fetch_all_sorted_paced_witness :
    (fetch_action sampleConfig3 "All" sampleFo sampleDl).1
      = [Ev.fetch "A", Ev.download "A", Ev.sleep (.num 5),
         Ev.fetch "B", Ev.download "B", Ev.sleep (.num 5),
         Ev.fetch "C", Ev.download "C"] ∧
    (fetch_action sampleConfig3 "All" sampleFo sampleDl).2.2 = .ok () := by
  have hns : sortStrings (sampleConfig3.Containers.map Prod.fst) = ["A", "B", "C"] := by rfl
  have h := fetch_all_sorted_paced sampleConfig3 "All" sampleFo sampleDl (by rfl) ?_
  · exact ⟨h.1.trans (by rw [hns]; rfl), h.2.1⟩
  · intro n hn
    rw [hns] at hn
    have hcases : n = "A" ∨ n = "B" ∨ n = "C" := by simpa using hn
    have hbody : api_request_check (sampleFo n) fetchKeys = true ∧
        alookup (sampleFo n) "ContainerID" = some (.num 1) ∧ pyInt (.num 1) = some 1 ∧
        alookup (sampleFo n) "ScriptVersion" = some (jstr "0.10") ∧
        pyFloat (jstr "0.10") = some versionQ ∧ sampleDl n = .ok "/tmp/x.torrent".data :=
      ⟨rfl, rfl, rfl, rfl, rfl, rfl⟩
    rcases hcases with rfl | rfl | rfl <;>
      exact ⟨sampleContainer, by rfl, rfl, hbody.1,
        ⟨.num 1, 1, hbody.2.1, hbody.2.2.1⟩,
        ⟨jstr "0.10", versionQ, hbody.2.2.2.1, hbody.2.2.2.2.1, by decide⟩,
        ⟨"/tmp/x.torrent".data, hbody.2.2.2.2.2⟩⟩

theorem forall₂_mem_right {α β : Type} {R : α → β → Prop} :
    ∀ {l : List α} {l' : List β}, List.Forall₂ R l l' → ∀ b ∈ l', ∃ a ∈ l, R a b := by
  intro l l' h
  induction h with
  | nil => intro b hb; cases hb
  | cons hR hrest ih =>
    intro b hb
    rcases List.mem_cons.mp hb with rfl | hb2
    · exact ⟨_, by simp, hR⟩
    · obtain ⟨a, ha, hab⟩ := ih b hb2
      exact ⟨a, by simp [ha], hab⟩

set_option maxHeartbeats 1000000 in
/-- Any successful `load_config` factors as: merge the top level, then
map the per-container transformation over the `Containers` object, then
write the transformed containers back. -/
theorem load_config_shape (m m' : List (String × JVal)) (h : load_config m = .ok m') :
    ∃ cs cs', alookup (mergeDefaults default_config m) "Containers" = some (.obj cs) ∧
      mapME (fun e => (loadContainer e.1 e.2).map (fun c' => (e.1, c'))) cs = .ok cs' ∧
      m' = aset (mergeDefaults default_config m) "Containers" (.obj cs') := by
  unfold load_config at h
  dsimp only at h
  cases halt : alookup (mergeDefaults default_config m) "Containers" with
  | none => rw [halt] at h; cases h
  | some v =>
    rw [halt] at h
    cases v with
    | obj cs =>
      dsimp only at h
      cases hmap : mapME (fun e => (loadContainer e.1 e.2).map (fun c' => (e.1, c'))) cs with
      | error e => rw [hmap] at h; cases h
      | ok cs' =>
        rw [hmap] at h
        cases h
        exact ⟨cs, cs', rfl, hmap, rfl⟩
    | null => cases h
    | bool b => cases h
    | num q => cases h
    | str s => cases h

set_option maxHeartbeats 1000000 in
/-- C1: a successful `load_config` backfills from the compiled-in
default template every missing field — at the top level and inside
every container record — without altering fields already present
(`lookup-or-default` at every key), and rewrites each container's
watch directory by substituting the container's key name for every
occurrence of `$name` in the present-or-defaulted value. -/
theorem load_config_backfills :
    (∀ m m' k, load_config m = .ok m' → k ≠ "Containers" →
      alookup m' k = (alookup m k).or (alookup default_config k)) ∧
    (∀ m m' cs, load_config m = .ok m' →
      (alookup m "Containers").or (some (.obj [])) = some (.obj cs) →
      ∃ cs', alookup m' "Containers" = some (.obj cs') ∧
        List.Forall₂ (fun e e' : String × JVal =>
          e'.1 = e.1 ∧ loadContainer e.1 e.2 = .ok e'.2) cs cs') ∧
    (∀ n cm c', loadContainer n (.obj cm) = .ok c' →
      ∃ cm', c' = .obj cm' ∧
        (∀ k, k ≠ "WatchDirectory" →
          alookup cm' k = (alookup cm k).or (alookup default_container k)) ∧
        (∃ w, (alookup cm "WatchDirectory").or (alookup default_container "WatchDirectory")
            = some (.str w) ∧
          alookup cm' "WatchDirectory" = some (.str (pyReplace dollarName n.data w)))) := by
  refine ⟨?_, ?_, ?_⟩
  · intro m m' k h hk
    obtain ⟨cs, cs', halt, hmap, rfl⟩ := load_config_shape m m' h
    rw [alookup_aset, if_neg hk, alookup_mergeDefaults]
  · intro m m' cs h hcs
    obtain ⟨cs0, cs', halt, hmap, rfl⟩ := load_config_shape m m' h
    have hcs0 : cs0 = cs := by
      rw [alookup_mergeDefaults] at halt
      have : alookup default_config "Containers" = some (.obj []) := by rfl
      rw [this] at halt
      rw [hcs] at halt
      exact (JVal.obj.inj (Option.some.inj halt)).symm
    rw [hcs0] at hmap
    refine ⟨cs', by rw [alookup_aset]; simp, ?_⟩
    refine (mapME_forall₂ _ cs cs' hmap).imp ?_
    intro e e' hR
    cases hlc : loadContainer e.1 e.2 with
    | error err => rw [hlc] at hR; cases hR
    | ok c0 =>
      rw [hlc] at hR
      cases hR
      exact ⟨rfl, rfl⟩
  · intro n cm c' h
    unfold loadContainer at h
    dsimp only at h
    cases halt : alookup (mergeDefaults default_container cm) "WatchDirectory" with
    | none => rw [halt] at h; cases h
    | some v =>
      rw [halt] at h
      cases v with
      | str w =>
        cases h
        refine ⟨_, rfl, ?_, ⟨w, ?_, ?_⟩⟩
        · intro k hk
          rw [alookup_aset, if_neg hk, alookup_mergeDefaults]
        · rw [← alookup_mergeDefaults, halt]
        · rw [alookup_aset]
          simp
      | null => cases h
      | bool b => cases h
      | num q => cases h
      | obj o => cases h

/-- Witness for C1 on `sampleDoc`: present fields survive, absent
fields take the defaults, and the container is merged with its watch
directory resolved to `/tmp/Foo`. -/
theorem load_config_backfills_witness :
    alookup loadedSample "BaseURL" = some (jstr "https://passthepopcorn.me") ∧
    alookup loadedSample "ApiUser" = some (jstr "u") ∧
    (∃ cs', alookup loadedSample "Containers" = some (.obj cs') ∧
      List.Forall₂ (fun e e' : String × JVal =>
        e'.1 = e.1 ∧ loadContainer e.1 e.2 = .ok e'.2)
        [("Foo", JVal.obj [("Size", jstr "1T")])] cs') ∧
    (∃ cm', loadContainer "Foo" (.obj [("Size", jstr "1T")]) = .ok (.obj cm') ∧
      alookup cm' "Size" = some (jstr "1T") ∧
      alookup cm' "MaxStalled" = some (.num 0) ∧
      alookup cm' "WatchDirectory" = some (jstr "/tmp/Foo")) := by
  obtain ⟨h1, h2, h3⟩ := load_config_backfills
  have hload : load_config sampleDoc = .ok loadedSample := by rfl
  refine ⟨(h1 sampleDoc loadedSample "BaseURL" hload (by decide)).trans (by rfl),
    (h1 sampleDoc loadedSample "ApiUser" hload (by decide)).trans (by rfl), ?_, ?_⟩
  · exact h2 sampleDoc loadedSample [("Foo", JVal.obj [("Size", jstr "1T")])] hload (by rfl)
  · have hlc : loadContainer "Foo" (.obj [("Size", jstr "1T")]) = .ok (.obj fooLoaded) := by rfl
    obtain ⟨cm', hcm, hfields, w, hw1, hw2⟩ := h3 "Foo" [("Size", jstr "1T")] (.obj fooLoaded) hlc
    cases hcm
    exact ⟨fooLoaded, hlc,
      (hfields "Size" (by decide)).trans (by rfl),
      (hfields "MaxStalled" (by decide)).trans (by rfl),
      by rfl⟩

/-- Counterexample to C8 as stated: `trickyDoc` loads fine, but
loading its saved image again changes the watch directory from
`$name` to `n` — the `$name` substitution is not idempotent when the
substituted value still contains `$name`. -/
theorem load_config_idempotent_cex :
    load_config trickyDoc = .ok trickyLoaded ∧
    load_config trickyLoaded ≠ .ok trickyLoaded := by
  refine ⟨by rfl, ?_⟩
  intro hcontra
  have h2 : load_config trickyLoaded = .ok trickyLoaded2 := by rfl
  rw [h2] at hcontra
  have h3 : trickyLoaded2 = trickyLoaded := Except.ok.inj hcontra
  have e2 : watchOfDoc trickyLoaded2 = some (jstr "n") := by rfl
  rw [h3] at e2
  have e1 : watchOfDoc trickyLoaded = some (jstr "$name") := by rfl
  exact absurd (JVal.str.inj (Option.some.inj (e1.symm.trans e2))) (by decide)

theorem containsKey_aset_of {α : Type} (m : List (String × α)) (k : String) (v : α)
    (k' : String) (h : containsKey m k' = true) : containsKey (aset m k v) k' = true := by
  unfold containsKey at h ⊢
  rw [alookup_aset]
  by_cases hk : k' = k
  · simp [hk]
  · simpa [hk] using h

theorem containsKey_mergeDefaults_of_mem {α : Type} (ds m : List (String × α))
    (kv : String × α) (h : kv ∈ ds) : containsKey (mergeDefaults ds m) kv.1 = true := by
  unfold containsKey
  rw [alookup_mergeDefaults]
  have h2 := alookup_isSome_of_mem ds kv.1 kv.2 h
  cases halt : alookup m kv.1 with
  | none => simpa [halt] using h2
  | some w => simp [halt]

theorem loadContainer_idem (n : String) (c c' : JVal) (h : loadContainer n c = .ok c')
    (hcl : ∀ cm' w, c' = .obj cm' → alookup cm' "WatchDirectory" = some (.str w) →
      containsSub dollarName w = false) :
    loadContainer n c' = .ok c' := by
  cases c with
  | obj cm =>
    unfold loadContainer at h
    dsimp only at h
    cases halt : alookup (mergeDefaults default_container cm) "WatchDirectory" with
    | none => rw [halt] at h; cases h
    | some v =>
      rw [halt] at h
      cases v with
      | str w =>
        cases h
        have hw : alookup (aset (mergeDefaults default_container cm) "WatchDirectory"
            (.str (pyReplace dollarName n.data w))) "WatchDirectory"
            = some (.str (pyReplace dollarName n.data w)) := by
          rw [alookup_aset]
          simp
        have hmerge : mergeDefaults default_container
            (aset (mergeDefaults default_container cm) "WatchDirectory"
              (.str (pyReplace dollarName n.data w)))
            = aset (mergeDefaults default_container cm) "WatchDirectory"
              (.str (pyReplace dollarName n.data w)) := by
          apply mergeDefaults_noop
          intro kv hkv
          exact containsKey_aset_of _ _ _ _
            (containsKey_mergeDefaults_of_mem default_container cm kv hkv)
        have hnc : containsSub dollarName (pyReplace dollarName n.data w) = false :=
          hcl _ _ rfl hw
        unfold loadContainer
        dsimp only
        rw [hmerge, hw]
        dsimp only
        rw [pyReplace_of_not_contains _ _ _ hnc, aset_self _ _ _ hw]
      | null => cases h
      | bool b => cases h
      | num q => cases h
      | obj o => cases h
  | null => cases h
  | bool b => cases h
  | num q => cases h
  | str s => cases h

set_option maxHeartbeats 1000000 in
/-- C8 (amended): `load_config` is idempotent through a (content
preserving, key order aside) save cycle provided no resolved watch
directory still contains the literal `$name`; without that proviso the
`$name` substitution can fire again on the second load (see the
counterexample), while the default-field merge is always idempotent. -/
theorem load_config_idempotent (m m' : List (String × JVal))
    (h : load_config m = .ok m') (hclean : watchClean m' = true) :
    load_config m' = .ok m' := by
  obtain ⟨cs, cs', halt, hmap, rfl⟩ := load_config_shape m m' h
  have hC : alookup (aset (mergeDefaults default_config m) "Containers" (.obj cs'))
      "Containers" = some (.obj cs') := by
    rw [alookup_aset]
    simp
  have hmergeTop : mergeDefaults default_config
      (aset (mergeDefaults default_config m) "Containers" (.obj cs'))
      = aset (mergeDefaults default_config m) "Containers" (.obj cs') := by
    apply mergeDefaults_noop
    intro kv hkv
    exact containsKey_aset_of _ _ _ _
      (containsKey_mergeDefaults_of_mem default_config m kv hkv)
  have hall : cs'.all containerClean = true := by
    unfold watchClean at hclean
    rw [hC] at hclean
    exact hclean
  have hforall := mapME_forall₂ _ cs cs' hmap
  have hid : ∀ e' ∈ cs',
      (fun e => (loadContainer e.1 e.2).map (fun c' => (e.1, c'))) e' = .ok e' := by
    intro e' he'
    obtain ⟨e, he, hR⟩ := forall₂_mem_right hforall e' he'
    cases hlc : loadContainer e.1 e.2 with
    | error err => rw [hlc] at hR; cases hR
    | ok c0 =>
      rw [hlc] at hR
      have he'eq : e' = (e.1, c0) := (Except.ok.inj hR).symm
      subst he'eq
      have hidc : loadContainer e.1 c0 = .ok c0 := by
        apply loadContainer_idem e.1 e.2 c0 hlc
        intro cm' w hceq hw
        have hcc := List.all_eq_true.mp hall (e.1, c0) he'
        unfold containerClean at hcc
        dsimp only at hcc
        rw [hceq] at hcc
        dsimp only at hcc
        rw [hw] at hcc
        simpa using hcc
      show (loadContainer e.1 c0).map (fun c' => (e.1, c')) = .ok (e.1, c0)
      rw [hidc]
      rfl
  have hmap2 := mapME_id _ cs' hid
  unfold load_config
  dsimp only
  rw [hmergeTop, hC]
  dsimp only
  rw [hmap2]
  dsimp only
  rw [aset_self _ _ _ hC]

/-- Witness for C8 (amended): `sampleDoc` loads to `loadedSample`,
whose watch directories are clean, and the second load fixes it. -/
theorem load_config_idempotent_witness :
    load_config sampleDoc = .ok loadedSample ∧ watchClean loadedSample = true ∧
    load_config loadedSample = .ok loadedSample :=
  ⟨by rfl, by rfl, load_config_idempotent sampleDoc loadedSample (by rfl) (by rfl)⟩

end Archiver
